import Mathlib

/-
  Verification of pvlib PVsyst_parameter_estimation.py.

  Shallow embedding notes:
  - numeric values are modelled over the rationals where the code only uses
    field arithmetic and comparisons, and over the reals where exp and sqrt
    appear; float NaN is modelled by Option (none = NaN) where a claim needs
    it, and float Inf by the top element of WithTop.
  - Python list/array slicing (including negative stops and clamping) is
    modelled exactly by pySlice and friends, since numdiff relies on it.
  - the external collaborators (singlediode, est_single_diode_param,
    update_io_known_n, update_rsh_fixed_pt, calc_theta_phi_exact) are out of
    scope per the spec; the refine loop is therefore modelled over an
    arbitrary sequence of per-iteration convergence metrics, and the driver
    tail over an arbitrary success record.
-/

/-- Python slice l[start:stop] with step 1: negative indices count from the
end, then both bounds clamp into [0, len]. -/
def pySlice {α : Type} (l : List α) (start stop : Int) : List α :=
  let len : Int := l.length
  let s : Int := if start < 0 then max 0 (len + start) else min start len
  let e : Int := if stop < 0 then max 0 (len + stop) else min stop len
  (l.drop s.toNat).take (e - s).toNat

/-- Helper for pySetSlice: walks the list with the running index. -/
def pySetSliceGo (s e : Int) (v : Option ℚ) : ℕ → List (Option ℚ) → List (Option ℚ)
  | _, [] => []
  | i, a :: t => (if s ≤ (i : Int) ∧ (i : Int) < e then v else a) :: pySetSliceGo s e v (i + 1) t

/-- Python slice assignment l[start:stop] = v with a scalar v (numpy
broadcast), e.g. df[0:2] = nan in numdiff. -/
def pySetSlice (l : List (Option ℚ)) (start stop : Int) (v : Option ℚ) : List (Option ℚ) :=
  let len : Int := l.length
  let s : Int := if start < 0 then max 0 (len + start) else min start len
  let e : Int := if stop < 0 then max 0 (len + stop) else min stop len
  pySetSliceGo s e v 0 l

/-- Python slice assignment l[start:stop] = vals with an array vals whose
length equals the slice length (numpy raises otherwise; in numdiff the
lengths always agree on the path that reaches this assignment). -/
def pyWriteSlice (l : List (Option ℚ)) (start _stop : Int) (vals : List ℚ) : List (Option ℚ) :=
  let len : Int := l.length
  let s : Int := if start < 0 then max 0 (len + start) else min start len
  l.take s.toNat ++ vals.map some ++ l.drop (s.toNat + vals.length)

/-- Rows of the five stacked shifted copies of a vector, as built by
np.vstack((f[0:(n-4)], f[1:(n-3)], f[2:(n-2)], f[3:(n-1)], f[4:n])).T. -/
def zip5 {α : Type} : List α → List α → List α → List α → List α → List (α × α × α × α × α)
  | a :: as, b :: bs, c :: cs, d :: ds, e :: es => (a, b, c, d, e) :: zip5 as bs cs ds es
  | _, _, _, _, _ => []

/-- One row of the first-derivative computation of numdiff: the u and l
coefficient rows are transcribed termwise from the source, and the row result
is np.sum(-(u / l) * ff, axis=1). -/
def numdiffDfRow (a f : ℚ × ℚ × ℚ × ℚ × ℚ) : ℚ :=
  let a0 := a.1
  let a1 := a.2.1
  let a2 := a.2.2.1
  let a3 := a.2.2.2.1
  let a4 := a.2.2.2.2
  let u0 := a1 * a2 * a3 + a1 * a2 * a4 + a1 * a3 * a4 + a2 * a3 * a4
  let u1 := a0 * a2 * a3 + a0 * a2 * a4 + a0 * a3 * a4 + a2 * a3 * a4
  let u2 := a0 * a1 * a3 + a0 * a1 * a4 + a0 * a3 * a4 + a1 * a3 * a4
  let u3 := a0 * a1 * a2 + a0 * a1 * a4 + a0 * a2 * a4 + a1 * a2 * a4
  let u4 := a0 * a1 * a2 + a0 * a1 * a3 + a0 * a2 * a3 + a1 * a2 * a3
  let l0 := (a0 - a1) * (a0 - a2) * (a0 - a3) * (a0 - a4)
  let l1 := (a1 - a0) * (a1 - a2) * (a1 - a3) * (a1 - a4)
  let l2 := (a2 - a0) * (a2 - a1) * (a2 - a3) * (a2 - a4)
  let l3 := (a3 - a0) * (a3 - a1) * (a3 - a2) * (a3 - a4)
  let l4 := (a4 - a0) * (a4 - a1) * (a4 - a2) * (a4 - a3)
  let row := -(u0 / l0) * f.1 + -(u1 / l1) * f.2.1 + -(u2 / l2) * f.2.2.1 +
    -(u3 / l3) * f.2.2.2.1 + -(u4 / l4) * f.2.2.2.2
  row

/-- One row of the second-derivative computation of numdiff, transcribed
termwise from the source: note that row 2 contains a1 * a3 twice (the source
repeats that product and omits a1 * a4), row 4 contains a1 * a4 in place of
a1 * a3, and the row result 2 * np.sum(u2 * ff, axis=1) is never divided by
the Lagrange denominator products l. -/
def numdiffDf2Row (a f : ℚ × ℚ × ℚ × ℚ × ℚ) : ℚ :=
  let a0 := a.1
  let a1 := a.2.1
  let a2 := a.2.2.1
  let a3 := a.2.2.2.1
  let a4 := a.2.2.2.2
  let u20 := a1 * a2 + a1 * a3 + a1 * a4 + a2 * a3 + a2 * a4 + a3 * a4
  let u21 := a0 * a2 + a0 * a3 + a0 * a4 + a2 * a3 + a2 * a4 + a3 * a4
  let u22 := a0 * a1 + a0 * a3 + a0 * a4 + a1 * a3 + a1 * a3 + a3 * a4
  let u23 := a0 * a1 + a0 * a2 + a0 * a4 + a1 * a2 + a1 * a4 + a2 * a4
  let u24 := a0 * a1 + a0 * a2 + a0 * a3 + a1 * a2 + a1 * a4 + a2 * a3
  let row := 2 * (u20 * f.1 + u21 * f.2.1 + u22 * f.2.2.1 + u23 * f.2.2.2.1 + u24 * f.2.2.2.2)
  row

/-- numdiff(x, f) from the source. Entries of the returned arrays are
Option rationals with none modelling float NaN. The outer Option models
exceptions: np.vstack raises when the five shifted slices have unequal
lengths (which happens exactly at len(f) = 3, where f[0:-1] has length 2 and
f[1:0] is empty), modelled as the none result. The boundary NaN assignments
df[0:2], df[(n-2):n] and the interior slice assignment df[2:(n-2)] follow
the Python slice semantics exactly. -/
def numdiff (x f : List ℚ) : Option (List (Option ℚ) × List (Option ℚ)) :=
  let n : Int := (f.length : Int)
  let base : List (Option ℚ) :=
    pySetSlice (pySetSlice (List.replicate f.length (some 0)) 0 2 none) (n - 2) n none
  let F0 := pySlice f 0 (n - 4)
  let F1 := pySlice f 1 (n - 3)
  let F2 := pySlice f 2 (n - 2)
  let F3 := pySlice f 3 (n - 1)
  let F4 := pySlice f 4 n
  if F1.length = F0.length ∧ F2.length = F0.length ∧ F3.length = F0.length ∧
      F4.length = F0.length then
    let X0 := pySlice x 0 (n - 4)
    let X1 := pySlice x 1 (n - 3)
    let X2 := pySlice x 2 (n - 2)
    let X3 := pySlice x 3 (n - 1)
    let X4 := pySlice x 4 n
    let C := pySlice x 2 (n - 2)
    if X1.length = X0.length ∧ X2.length = X0.length ∧ X3.length = X0.length ∧
        X4.length = X0.length ∧ C.length = X0.length ∧ X0.length = F0.length then
      let arows := List.zipWith
        (fun (t : ℚ × ℚ × ℚ × ℚ × ℚ) (c : ℚ) =>
          (t.1 - c, t.2.1 - c, t.2.2.1 - c, t.2.2.2.1 - c, t.2.2.2.2 - c))
        (zip5 X0 X1 X2 X3 X4) C
      let frows := zip5 F0 F1 F2 F3 F4
      some (pyWriteSlice base 2 (n - 2) (List.zipWith numdiffDfRow arows frows),
            pyWriteSlice base 2 (n - 2) (List.zipWith numdiffDf2Row arows frows))
    else none
  else none

/-- Insertion into a sorted duplicate-free list; foldr over this gives the
sorted unique values of np.unique. -/
def insertSorted (a : ℚ) : List ℚ → List ℚ
  | [] => [a]
  | b :: t => if a < b then a :: b :: t else if a = b then b :: t else b :: insertSorted a t

/-- np.unique: the sorted list of distinct values. -/
def sortedDedup (l : List ℚ) : List ℚ := l.foldr insertSorted []

/-- np.average of a list, sum divided by length. -/
def npAverage (l : List ℚ) : ℚ := l.sum / (l.length : ℚ)

/-- The currents at the positions whose voltage equals w, as collected by the
inner loop of the duplicate-removal branch of rectify_iv_curve. -/
def currentsAt (voltage current : List ℚ) (w : ℚ) : List ℚ :=
  ((voltage.zip current).filter (fun p => decide (p.1 = w))).map Prod.snd

/-- The data_filter loop of rectify_iv_curve: the input points whose current
is at least 0 and whose voltage lies in [0, voc], in input order. -/
def keptPoints (ti tv : List ℚ) (voc : ℚ) : List (ℚ × ℚ) :=
  (ti.zip tv).filter
    (fun p => decide (0 ≤ p.1) && decide (p.2 ≤ voc) && decide (0 ≤ p.2))

/-- The current array of rectify_iv_curve before duplicate removal: isc in
front (paired with voltage 0) and 0 at the back (paired with voltage voc). -/
def rectCurrent (ti tv : List ℚ) (voc isc : ℚ) : List ℚ :=
  isc :: ((keptPoints ti tv voc).map Prod.fst ++ [0])

/-- The voltage array of rectify_iv_curve before duplicate removal: 0 in
front and voc at the back. -/
def rectVoltage (ti tv : List ℚ) (voc : ℚ) : List ℚ :=
  0 :: ((keptPoints ti tv voc).map Prod.snd ++ [voc])

/-- rectify_iv_curve(ti, tv, voc, isc) from the source: keep the points with
current at least 0 and voltage in [0, voc], put (isc at voltage 0) in front
and (0 at voltage voc) at the back, and only if some voltage value repeats
(np.unique returns fewer values than the array length), replace the data by
the sorted unique voltages with averaged currents. When no voltage repeats,
the arrays are returned in the original, possibly unsorted, order. -/
def rectify_iv_curve (ti tv : List ℚ) (voc isc : ℚ) : List ℚ × List ℚ :=
  let current := rectCurrent ti tv voc isc
  let voltage := rectVoltage ti tv voc
  let uniq := sortedDedup voltage
  if uniq.length = voltage.length then (current, voltage)
  else (uniq.map (fun w => npAverage (currentsAt voltage current w)), uniq)

/-- The output of rectify_iv_curve as a list of (current, voltage) points. -/
def rectifyPoints (ti tv : List ℚ) (voc isc : ℚ) : List (ℚ × ℚ) :=
  (rectify_iv_curve ti tv voc isc).1.zip (rectify_iv_curve ti tv voc isc).2

/-- The slope coefficient of the no-intercept least-squares fit of isc
against ee / 1000 computed by np.linalg.lstsq in filter_params; the second
matrix column is identically zero, so the minimum-norm solution has first
component sum(x * y) / sum(x ^ 2) when the irradiances are not all zero, and
0 otherwise. -/
def isc_fit_coeff {m : ℕ} (ee isc : Fin m → ℚ) : ℚ :=
  let sx := ∑ i, (ee i / 1000) ^ 2
  if sx = 0 then 0 else (∑ i, ee i / 1000 * isc i) / sx

/-- filter_params(io, rsh, rs, ee, isc) from the source. The realness tests
are identically true in a real-valued model and NaN does not arise over the
rationals, so badrsh reduces to rsh < 0, badrs to rs > rsh, and badio to
io <= 0 (the source tests isreal(rs), not isreal(io), in badio). -/
def filter_params {m : ℕ} (io rsh rs ee isc : Fin m → ℚ) : Fin m → Bool := fun j =>
  let eff := isc_fit_coeff ee isc
  let pisc_error := |eff * ee j / 1000 - isc j| / isc j
  decide (¬ rsh j < 0 ∧ ¬ rs j < 0 ∧ ¬ rs j > rsh j ∧ ¬ io j ≤ 0 ∧ ¬ pisc_error > 5 / 100)

/-- estrsh(x, rshexp, g, go) from the source. The source computes
np.max(expr, 0.) where the second positional argument of np.max is the axis,
not a second operand: the baseline rshb is NOT clamped below at zero (on the
numpy versions this code targets, np.max of a scalar with axis 0 returns the
scalar unchanged). -/
noncomputable def estrsh (x : ℝ × ℝ) (rshexp g go : ℝ) : ℝ :=
  let rsho := x.1
  let rshref := x.2
  let rshb := (rshref - rsho * Real.exp (-rshexp)) / (1 - Real.exp (-rshexp))
  rshb + (rsho - rshb) * Real.exp (-rshexp * g / go)

/-- The shunt-resistance irradiance model as the spec words it, for
comparison with estrsh: the baseline term is clamped below at zero. -/
noncomputable def estrshSpec (x : ℝ × ℝ) (rshexp g go : ℝ) : ℝ :=
  let rshb := max 0 ((x.2 - x.1 * Real.exp (-rshexp)) / (1 - Real.exp (-rshexp)))
  rshb + (x.1 - rshb) * Real.exp (-rshexp * g / go)

/-- Percent error between model and measured values, (model - meas) / meas * 100. -/
noncomputable def pcterr {n : ℕ} (model meas : Fin (n + 1) → ℝ) : Fin (n + 1) → ℝ :=
  fun i => (model i - meas i) / meas i * 100

/-- Python max over a nonempty vector. -/
noncomputable def maxv {n : ℕ} (v : Fin (n + 1) → ℝ) : ℝ :=
  Finset.univ.sup' Finset.univ_nonempty v

/-- Python min over a nonempty vector. -/
noncomputable def minv {n : ℕ} (v : Fin (n + 1) → ℝ) : ℝ :=
  Finset.univ.inf' Finset.univ_nonempty v

/-- np.mean of a vector of n + 1 values. -/
noncomputable def meanv {n : ℕ} (v : Fin (n + 1) → ℝ) : ℝ :=
  (∑ i, v i) / (n + 1)

/-- np.std with ddof = 1 of a vector of n + 1 values: the sample standard
deviation with denominator n. -/
noncomputable def stdv {n : ℕ} (v : Fin (n + 1) → ℝ) : ℝ :=
  Real.sqrt ((∑ i, (v i - meanv v) ^ 2) / n)

/-- The convergence record built by check_converge: the fifteen error
statistics, the nine relative-change values (float Inf is the top element of
WithTop), and the state marker (a float in the source, 0 only in the initial
sentinel record). -/
structure ConvergeParam where
  imperrmax : ℝ
  imperrmin : ℝ
  imperrabsmax : ℝ
  imperrmean : ℝ
  imperrstd : ℝ
  vmperrmax : ℝ
  vmperrmin : ℝ
  vmperrabsmax : ℝ
  vmperrmean : ℝ
  vmperrstd : ℝ
  pmperrmax : ℝ
  pmperrmin : ℝ
  pmperrabsmax : ℝ
  pmperrmean : ℝ
  pmperrstd : ℝ
  imperrstdchange : WithTop ℝ
  vmperrstdchange : WithTop ℝ
  pmperrstdchange : WithTop ℝ
  imperrmeanchange : WithTop ℝ
  vmperrmeanchange : WithTop ℝ
  pmperrmeanchange : WithTop ℝ
  imperrabsmaxchange : WithTop ℝ
  vmperrabsmaxchange : WithTop ℝ
  pmperrabsmaxchange : WithTop ℝ
  state : ℚ

/-- check_converge(prevparams, result, vmp, imp, ...) from the source, with
the plotting side channel omitted (it has no effect on the returned record).
The result vectors i_mp, v_mp, p_mp of the external single-diode evaluator
are the first three arguments after prevparams. -/
noncomputable def check_converge {n : ℕ} (prevparams : ConvergeParam)
    (resImp resVmp resPmp vmp imp : Fin (n + 1) → ℝ) : ConvergeParam :=
  let imperror := pcterr resImp imp
  let vmperror := pcterr resVmp vmp
  let pmperror := pcterr resPmp fun i => imp i * vmp i
  { imperrmax := maxv imperror
    imperrmin := minv imperror
    imperrabsmax := maxv fun i => |imperror i|
    imperrmean := meanv imperror
    imperrstd := stdv imperror
    vmperrmax := maxv vmperror
    vmperrmin := minv vmperror
    vmperrabsmax := maxv fun i => |vmperror i|
    vmperrmean := meanv vmperror
    vmperrstd := stdv vmperror
    pmperrmax := maxv pmperror
    pmperrmin := minv pmperror
    pmperrabsmax := maxv fun i => |pmperror i|
    pmperrmean := meanv pmperror
    pmperrstd := stdv pmperror
    imperrstdchange := if prevparams.state ≠ 0 then
        ((|(stdv imperror - prevparams.imperrstd) / prevparams.imperrstd| : ℝ) : WithTop ℝ)
      else ⊤
    vmperrstdchange := if prevparams.state ≠ 0 then
        ((|(stdv vmperror - prevparams.vmperrstd) / prevparams.vmperrstd| : ℝ) : WithTop ℝ)
      else ⊤
    pmperrstdchange := if prevparams.state ≠ 0 then
        ((|(stdv pmperror - prevparams.pmperrstd) / prevparams.pmperrstd| : ℝ) : WithTop ℝ)
      else ⊤
    imperrmeanchange := if prevparams.state ≠ 0 then
        ((|(meanv imperror - prevparams.imperrmean) / prevparams.imperrmean| : ℝ) : WithTop ℝ)
      else ⊤
    vmperrmeanchange := if prevparams.state ≠ 0 then
        ((|(meanv vmperror - prevparams.vmperrmean) / prevparams.vmperrmean| : ℝ) : WithTop ℝ)
      else ⊤
    pmperrmeanchange := if prevparams.state ≠ 0 then
        ((|(meanv pmperror - prevparams.pmperrmean) / prevparams.pmperrmean| : ℝ) : WithTop ℝ)
      else ⊤
    imperrabsmaxchange := if prevparams.state ≠ 0 then
        ((|(maxv (fun i => |imperror i|) - prevparams.imperrabsmax) /
            prevparams.imperrabsmax| : ℝ) : WithTop ℝ)
      else ⊤
    vmperrabsmaxchange := if prevparams.state ≠ 0 then
        ((|(maxv (fun i => |vmperror i|) - prevparams.vmperrabsmax) /
            prevparams.vmperrabsmax| : ℝ) : WithTop ℝ)
      else ⊤
    pmperrabsmaxchange := if prevparams.state ≠ 0 then
        ((|(maxv (fun i => |pmperror i|) - prevparams.pmperrabsmax) /
            prevparams.pmperrabsmax| : ℝ) : WithTop ℝ)
      else ⊤
    state := 1 }

/-- The t14 recomputation at the end of each refine-loop iteration: true when
some of the nine relative-change metrics is at least eps1 (float Inf, the top
element, always is). -/
def anyGE (m : Fin 9 → WithTop ℚ) (eps1 : ℚ) : Bool :=
  decide (∃ j, (eps1 : WithTop ℚ) ≤ m j)

/-- The refine while loop of pvsyst_parameter_estimation, abstracted over the
per-iteration convergence metrics (the nine relative-change values produced
by check_converge at each iteration, which depend on the external solvers).
Returns the number of executed loop-body iterations. The fuel argument is
always called with at least maxiter + 1 - counter, so it never runs out; the
loop condition is t14.any() and counter <= maxiter, with counter incremented
after each body. -/
def refineGo (metrics : ℕ → Fin 9 → WithTop ℚ) (eps1 : ℚ) (maxiter : ℕ) :
    ℕ → ℕ → Bool → ℕ
  | 0, _, _ => 0
  | fuel + 1, counter, t14 =>
      if t14 = true ∧ counter ≤ maxiter then
        refineGo metrics eps1 maxiter fuel (counter + 1) (anyGE (metrics counter) eps1) + 1
      else 0

/-- Number of iterations executed by the refine loop: counter starts at 1 and
t14 starts as np.array of true. -/
def refineLoop (metrics : ℕ → Fin 9 → WithTop ℚ) (eps1 : ℚ) (maxiter : ℕ) : ℕ :=
  refineGo metrics eps1 maxiter (maxiter + 1) 1 true

/-- A value stored in the returned parameter record: the float NaN sentinel,
a scalar, or a per-curve array. -/
inductive PValue where
  | nan : PValue
  | num : ℚ → PValue
  | vec : List ℚ → PValue
deriving DecidableEq

/-- The ordered record of PVsyst parameters returned by
pvsyst_parameter_estimation. -/
structure PVsystRecord where
  IL_ref : PValue
  Io_ref : PValue
  eG : PValue
  Rs_ref : PValue
  gamma_ref : PValue
  mugamma : PValue
  Iph : PValue
  Io : PValue
  Rsh0 : PValue
  Rsh_ref : PValue
  Rshexp : PValue
  Rs : PValue
  Rsh : PValue
  Ns : PValue
  u : PValue
deriving DecidableEq

/-- The record the gamma-failure branch of pvsyst_parameter_estimation
assembles (the else branch near the end of the function): every field is the
scalar float NaN except Ns, which is set to specs ns, and u, which is set to
np.zeros(n) for n the number of input IV curves. The branch itself is
unreachable dead code, see pvsystOutput. -/
def failureRecord (ns : ℚ) (n : ℕ) : PVsystRecord :=
  { IL_ref := PValue.nan
    Io_ref := PValue.nan
    eG := PValue.nan
    Rs_ref := PValue.nan
    gamma_ref := PValue.nan
    mugamma := PValue.nan
    Iph := PValue.nan
    Io := PValue.nan
    Rsh0 := PValue.nan
    Rsh_ref := PValue.nan
    Rshexp := PValue.nan
    Rs := PValue.nan
    Rsh := PValue.nan
    Ns := PValue.num ns
    u := PValue.vec (List.replicate n 0) }

/-- The badgamma test of the source: gamma_ref and mugamma are modelled as
Option rationals with none = NaN; the isreal tests are identically true in a
real-valued model. -/
def badgamma (gammaRef mugamma : Option ℚ) : Bool :=
  gammaRef.isNone || mugamma.isNone

/-- Python bitwise complement of a bool, as evaluated by the tilde operator
in the dispatch of the source: the bool converts to the int 1 or 0 and the
complement is -2 or -1 respectively, both nonzero and hence truthy. -/
def pyTildeBool (b : Bool) : Int :=
  if b then -2 else -1

/-- The final dispatch of pvsyst_parameter_estimation. The source tests the
bitwise complement of badgamma, a plain Python bool, so the condition is -2
for badgamma True and -1 for badgamma False, truthy either way: the success
branch (the record built by the rest of the driver, abstracted here since it
depends on the external solvers) is always taken with oflag true, and the
else branch that would return the failure record with oflag false is
unreachable dead code. -/
def pvsystOutput (gammaRef mugamma : Option ℚ) (ns : ℚ) (n : ℕ)
    (success : PVsystRecord) : PVsystRecord × Bool :=
  if pyTildeBool (badgamma gammaRef mugamma) ≠ 0 then (success, true)
  else (failureRecord ns n, false)

/-- Concrete metric sequence for exercising the refine loop: all-infinite on
iteration 1 (the sentinel behaviour), zero afterwards. -/
def metricsW : ℕ → Fin 9 → WithTop ℚ :=
  fun k _ => if k = 1 then ⊤ else (0 : ℚ)

/-- A concrete sentinel convergence record, state 0. -/
noncomputable def prevZero : ConvergeParam :=
  { imperrmax := 0, imperrmin := 0, imperrabsmax := 0, imperrmean := 0, imperrstd := 0
    vmperrmax := 0, vmperrmin := 0, vmperrabsmax := 0, vmperrmean := 0, vmperrstd := 0
    pmperrmax := 0, pmperrmin := 0, pmperrabsmax := 0, pmperrmean := 0, pmperrstd := 0
    imperrstdchange := ⊤, vmperrstdchange := ⊤, pmperrstdchange := ⊤
    imperrmeanchange := ⊤, vmperrmeanchange := ⊤, pmperrmeanchange := ⊤
    imperrabsmaxchange := ⊤, vmperrabsmaxchange := ⊤, pmperrabsmaxchange := ⊤
    state := 0 }

/-- A concrete genuine previous convergence record, state 1. -/
noncomputable def prevOne : ConvergeParam :=
  { imperrmax := 2, imperrmin := 2, imperrabsmax := 2, imperrmean := 2, imperrstd := 2
    vmperrmax := 2, vmperrmin := 2, vmperrabsmax := 2, vmperrmean := 2, vmperrstd := 2
    pmperrmax := 2, pmperrmin := 2, pmperrabsmax := 2, pmperrmean := 2, pmperrstd := 2
    imperrstdchange := ⊤, vmperrstdchange := ⊤, pmperrstdchange := ⊤
    imperrmeanchange := ⊤, vmperrmeanchange := ⊤, pmperrmeanchange := ⊤
    imperrabsmaxchange := ⊤, vmperrabsmaxchange := ⊤, pmperrabsmaxchange := ⊤
    state := 1 }

/- Helper lemmas (shared). -/

/-- Membership in insertSorted. -/
theorem mem_insertSorted (a b : ℚ) (l : List ℚ) :
    b ∈ insertSorted a l ↔ b = a ∨ b ∈ l := by
  induction l with
  | nil => simp [insertSorted]
  | cons c t ih =>
    simp only [insertSorted]
    split_ifs with h1 h2
    · simp [List.mem_cons]
    · subst h2
      simp only [List.mem_cons]
      tauto
    · simp only [List.mem_cons, ih]
      tauto

/-- sortedDedup preserves the set of elements. -/
theorem mem_sortedDedup (b : ℚ) (l : List ℚ) : b ∈ sortedDedup l ↔ b ∈ l := by
  induction l with
  | nil => simp [sortedDedup]
  | cons c t ih =>
    show b ∈ insertSorted c (sortedDedup t) ↔ _
    rw [mem_insertSorted, ih]
    simp [List.mem_cons]

/-- Zipping a mapped list with the original list. -/
theorem map_zip_self (g : ℚ → ℚ) (l : List ℚ) :
    (l.map g).zip l = l.map (fun w => (g w, w)) := by
  induction l with
  | nil => rfl
  | cons a t ih => simp [List.zip_cons_cons, ih]

/-- The refine loop body never runs once the counter exceeds maxiter. -/
theorem refineGo_stop (metrics : ℕ → Fin 9 → WithTop ℚ) (eps1 : ℚ) (maxiter fuel counter : ℕ)
    (t : Bool) (h : maxiter < counter) :
    refineGo metrics eps1 maxiter fuel counter t = 0 := by
  cases fuel with
  | zero => rfl
  | succ fuel =>
    simp only [refineGo]
    rw [if_neg]
    rintro ⟨-, hc⟩
    omega

/-- The refine loop body never runs once t14 is false. -/
theorem refineGo_exit (metrics : ℕ → Fin 9 → WithTop ℚ) (eps1 : ℚ) (maxiter fuel counter : ℕ) :
    refineGo metrics eps1 maxiter fuel counter false = 0 := by
  cases fuel with
  | zero => rfl
  | succ fuel => simp [refineGo]

/-- Iteration-count invariant of the refine loop: with enough fuel and the
counter within range, at least one more iteration runs, the total cannot pass
counter = maxiter, and an early stop means the metrics of the last executed
iteration were all strictly below eps1. -/
theorem refineGo_count (metrics : ℕ → Fin 9 → WithTop ℚ) (eps1 : ℚ) (maxiter : ℕ) :
    ∀ fuel counter, counter ≤ maxiter → maxiter + 1 ≤ fuel + counter →
      1 ≤ refineGo metrics eps1 maxiter fuel counter true ∧
      refineGo metrics eps1 maxiter fuel counter true + counter ≤ maxiter + 1 ∧
      (refineGo metrics eps1 maxiter fuel counter true + counter < maxiter + 1 →
        ∀ j, metrics (counter + refineGo metrics eps1 maxiter fuel counter true - 1) j <
          (eps1 : WithTop ℚ)) := by
  intro fuel
  induction fuel with
  | zero =>
    intro counter hc hf
    exact absurd hf (by omega)
  | succ fuel ih =>
    intro counter hc hf
    have hunf : refineGo metrics eps1 maxiter (fuel + 1) counter true =
        refineGo metrics eps1 maxiter fuel (counter + 1) (anyGE (metrics counter) eps1) + 1 := by
      simp [refineGo, hc]
    rw [hunf]
    cases hB : anyGE (metrics counter) eps1 with
    | false =>
      rw [refineGo_exit]
      refine ⟨by omega, by omega, ?_⟩
      intro _ j
      have hnot : ¬ ∃ j, (eps1 : WithTop ℚ) ≤ metrics counter j := by
        simpa [anyGE] using hB
      have hj := not_exists.mp hnot j
      have hidx : counter + (0 + 1) - 1 = counter := by omega
      rw [hidx]
      exact not_le.mp hj
    | true =>
      rcases Nat.lt_or_ge counter maxiter with hlt | hge
      · obtain ⟨h1, h2, h3⟩ := ih (counter + 1) (by omega) (by omega)
        refine ⟨by omega, by omega, ?_⟩
        intro hlt2 j
        have hidx : counter + (refineGo metrics eps1 maxiter fuel (counter + 1) true + 1) - 1 =
            counter + 1 + refineGo metrics eps1 maxiter fuel (counter + 1) true - 1 := by
          omega
        rw [hidx]
        exact h3 (by omega) j
      · rw [refineGo_stop metrics eps1 maxiter fuel (counter + 1) true (by omega)]
        refine ⟨by omega, by omega, ?_⟩
        intro hlt2
        exact absurd hlt2 (by omega)

/- Claim theorems. -/

/-- C1 (code bug): the claim, the docstring (oflag indicating success or
failure; if failure, then no parameter values are returned) and the spec all
say that a NaN gamma_ref or mugamma makes pvsyst_parameter_estimation return
oflag false with the NaN-filled record. But the dispatch applies the bitwise
complement to the Python bool badgamma, giving -2 when True and -1 when
False, both truthy: even with gamma_ref = NaN (badgamma true, first
conjunct), the success branch runs and the output is the success record with
oflag true, for every input; the failure return is unreachable dead code. -/
theorem pvsyst_gamma_failure_dead_code :
    badgamma none (some 1) = true ∧
    ∀ (gammaRef mugamma : Option ℚ) (ns : ℚ) (n : ℕ) (success : PVsystRecord),
      pvsystOutput gammaRef mugamma ns n success = (success, true) := by
  constructor
  · rfl
  · intro gammaRef mugamma ns n success
    simp only [pvsystOutput, pyTildeBool]
    cases badgamma gammaRef mugamma <;> simp

/-- C10 (code bug): the record built by the gamma-failure branch does have
its Ns field equal to specs ns (not NaN) and its u field equal to the
all-zeros mask of length n, exactly as the claim reads off those assignments,
but the branch is unreachable: the dispatch on the bitwise complement of
badgamma is always truthy, so the program never returns that record and the
returned success flag is always true. -/
theorem pvsyst_failure_branch_ns_u_dead_code (ns : ℚ) (n : ℕ) :
    (failureRecord ns n).Ns = PValue.num ns ∧
    (failureRecord ns n).Ns ≠ PValue.nan ∧
    (failureRecord ns n).u = PValue.vec (List.replicate n 0) ∧
    ∀ (gammaRef mugamma : Option ℚ) (success : PVsystRecord),
      (pvsystOutput gammaRef mugamma ns n success).2 = true := by
  refine ⟨rfl, by simp [failureRecord], rfl, ?_⟩
  intro gammaRef mugamma success
  simp only [pvsystOutput, pyTildeBool]
  cases badgamma gammaRef mugamma <;> simp

/-- C3: every curve marked usable by filter_params has positive Io,
nonnegative Rsh and Rs, Rs at most Rsh, and a predicted short-circuit
current from the no-intercept linear fit of Isc against Ee / 1000 within 5
percent relative error; in particular a curve with Rs above Rsh, or with
nonpositive Io, is never usable. -/
theorem filter_params_usable_invariant {m : ℕ} (io rsh rs ee isc : Fin m → ℚ) (j : Fin m) :
    (filter_params io rsh rs ee isc j = true →
      0 < io j ∧ 0 ≤ rsh j ∧ 0 ≤ rs j ∧ rs j ≤ rsh j ∧
        |isc_fit_coeff ee isc * ee j / 1000 - isc j| / isc j ≤ 5 / 100) ∧
    (rsh j < rs j ∨ io j ≤ 0 → filter_params io rsh rs ee isc j = false) := by
  constructor
  · intro hu
    have h : ¬ rsh j < 0 ∧ ¬ rs j < 0 ∧ ¬ rs j > rsh j ∧ ¬ io j ≤ 0 ∧
        ¬ |isc_fit_coeff ee isc * ee j / 1000 - isc j| / isc j > 5 / 100 := by
      simpa [filter_params] using hu
    exact ⟨not_le.mp h.2.2.2.1, not_lt.mp h.1, not_lt.mp h.2.1, not_lt.mp h.2.2.1,
      not_lt.mp h.2.2.2.2⟩
  · intro hbad
    simp only [filter_params, decide_eq_false_iff_not]
    intro hgood
    rcases hbad with hb | hb
    · exact hgood.2.2.1 hb
    · exact hgood.2.2.2.1 hb

/-- C3 witness: a concrete usable curve and its invariant. -/
theorem filter_params_usable_invariant_witness :
    filter_params (fun _ => 2) (fun _ => 1) (fun _ => 0) (fun _ => 1000)
        (fun _ => 3) (0 : Fin 1) = true ∧
      (0 < (2 : ℚ) ∧ (0 : ℚ) ≤ 1 ∧ (0 : ℚ) ≤ 0 ∧ (0 : ℚ) ≤ 1 ∧
        |@isc_fit_coeff 1 (fun _ => 1000) (fun _ => 3) * 1000 / 1000 - 3| / 3 ≤ 5 / 100) :=
  ⟨by with_unfolding_all rfl,
    (filter_params_usable_invariant (fun _ => 2) (fun _ => 1) (fun _ => 0) (fun _ => 1000)
      (fun _ => 3) (0 : Fin 1)).1 (by with_unfolding_all rfl)⟩

/-- C4: evaluating the source numdiff on five uniformly spaced points with
f = x squared. The first derivative df[2] = 4 = 2 * x[2] is as the claim
states and the boundary entries are NaN, but df2[2] evaluates to -176, not
2: the second-derivative numerator rows contain transcription slips and are
never divided by the Lagrange denominator products, so the documented values
for the second derivative are not produced. -/
theorem numdiff_square_df2_bug :
    numdiff [0, 1, 2, 3, 4] [0, 1, 4, 9, 16] =
      some ([none, none, some 4, none, none], [none, none, some (-176), none, none]) := by
  simp [numdiff, pySlice, pySetSlice, pySetSliceGo, pyWriteSlice, zip5]
  norm_num [numdiffDfRow, numdiffDf2Row]

/-- C5: on input currents [1, 2], voltages [5, 3], voc 10, isc 4 all
voltages are distinct, so the duplicate-removal branch is skipped and
rectify_iv_curve returns the voltage array [0, 5, 3, 10] in the original
order, which is not strictly increasing, contrary to the claim and to the
docstring of the function. -/
theorem rectify_iv_curve_unsorted_bug :
    (rectify_iv_curve [1, 2] [5, 3] 10 4).2 = [0, 5, 3, 10] ∧
      ¬ List.Chain' (fun a b : ℚ => a < b) [(0 : ℚ), 5, 3, 10] := by
  constructor
  · decide
  · norm_num [List.chain'_cons]

/-- C7 (counterexample): for equal-length inputs of length 3, numdiff
raises: the five shifted slices f[0:-1], f[1:0], f[2:1], f[3:2], f[4:3] have
lengths 2, 0, 0, 0, 0 and np.vstack fails, modelled by the none result. -/
theorem numdiff_length_three_raises :
    numdiff [0, 1, 2] [0, 1, 2] = none := by
  simp [numdiff, pySlice]

/-- C7 (amended): for every pair of equal-length arrays with common length
below 5 and different from 3, numdiff raises no error and returns two
all-NaN arrays of the input length; at length exactly 3 it raises. -/
theorem numdiff_short_input_allnan (x f : List ℚ) (hlen : x.length = f.length)
    (h5 : f.length < 5) (h3 : f.length ≠ 3) :
    numdiff x f = some (List.replicate f.length none, List.replicate f.length none) := by
  rcases f with - | ⟨a1, - | ⟨a2, - | ⟨a3, - | ⟨a4, - | ⟨a5, f⟩⟩⟩⟩⟩ <;>
    rcases x with - | ⟨b1, - | ⟨b2, - | ⟨b3, - | ⟨b4, - | ⟨b5, x⟩⟩⟩⟩⟩ <;>
      first
        | (exfalso
           simp only [List.length_cons, List.length_nil] at hlen h5 h3
           omega)
        | with_unfolding_all rfl

/-- C7 witness: the amended statement at a concrete length-2 input. -/
theorem numdiff_short_input_allnan_witness :
    numdiff [1, 2] [3, 4] = some (List.replicate 2 none, List.replicate 2 none) :=
  numdiff_short_input_allnan [1, 2] [3, 4] rfl (by decide) (by decide)

/-- C2: for every maxiter at least 1, the refine loop executes at least one
and at most maxiter iterations; it stops before reaching maxiter only when
all nine relative-change metrics of the just-completed iteration are
strictly below eps1; and since the metrics of iteration 1 are all infinite
(the sentinel state), it never stops for that reason after iteration 1. -/
theorem refine_loop_iteration_bounds (metrics : ℕ → Fin 9 → WithTop ℚ) (eps1 : ℚ)
    (maxiter : ℕ) (hmax : 1 ≤ maxiter) (hfirst : ∀ j, metrics 1 j = ⊤) :
    1 ≤ refineLoop metrics eps1 maxiter ∧
    refineLoop metrics eps1 maxiter ≤ maxiter ∧
    (refineLoop metrics eps1 maxiter < maxiter →
      ∀ j, metrics (refineLoop metrics eps1 maxiter) j < (eps1 : WithTop ℚ)) ∧
    (2 ≤ maxiter → 2 ≤ refineLoop metrics eps1 maxiter) := by
  obtain ⟨h1, h2, h3⟩ := refineGo_count metrics eps1 maxiter (maxiter + 1) 1 hmax (by omega)
  have he : refineGo metrics eps1 maxiter (maxiter + 1) 1 true = refineLoop metrics eps1 maxiter :=
    rfl
  rw [he] at h1 h2 h3
  refine ⟨h1, by omega, ?_, ?_⟩
  · intro hlt j
    have hm := h3 (by omega) j
    rwa [show 1 + refineLoop metrics eps1 maxiter - 1 = refineLoop metrics eps1 maxiter from
      by omega] at hm
  · intro h2m
    have hstep : refineLoop metrics eps1 maxiter =
        refineGo metrics eps1 maxiter maxiter 2 (anyGE (metrics 1) eps1) + 1 := by
      show refineGo metrics eps1 maxiter (maxiter + 1) 1 true = _
      simp [refineGo, hmax]
    have hA : anyGE (metrics 1) eps1 = true := by
      simp only [anyGE, decide_eq_true_eq]
      refine ⟨0, ?_⟩
      rw [hfirst 0]
      exact le_top
    rw [hA] at hstep
    have hmore := (refineGo_count metrics eps1 maxiter maxiter 2 (by omega) (by omega)).1
    omega

/-- C2 witness: a concrete metric sequence, infinite on iteration 1 and zero
afterwards, with eps1 = 1 and maxiter = 3. -/
theorem refine_loop_iteration_bounds_witness :
    1 ≤ refineLoop metricsW 1 3 ∧
    refineLoop metricsW 1 3 ≤ 3 ∧
    (refineLoop metricsW 1 3 < 3 →
      ∀ j, metricsW (refineLoop metricsW 1 3) j < ((1 : ℚ) : WithTop ℚ)) ∧
    (2 ≤ 3 → 2 ≤ refineLoop metricsW 1 3) :=
  refine_loop_iteration_bounds metricsW 1 3 (by omega) (fun _ => rfl)

/-- C6: estrsh does not clamp the baseline term at zero, because np.max is
called with 0. as its axis argument. At Rsh0 = 1, Rshref = 0, rshexp = 1,
ee = e0 = 1 the source function returns 0, while the claimed formula with
the baseline clamped below at zero returns exp(-1), a positive number. -/
theorem estrsh_unclamped_baseline_bug :
    estrsh (1, 0) 1 1 1 = 0 ∧ estrshSpec (1, 0) 1 1 1 = Real.exp (-1) ∧
      estrsh (1, 0) 1 1 1 ≠ estrshSpec (1, 0) 1 1 1 := by
  have hpos : 0 < Real.exp (-1 : ℝ) := Real.exp_pos _
  have he1 : Real.exp (-1 : ℝ) < 1 := by
    have h := Real.exp_lt_exp.mpr (show (-1 : ℝ) < 0 by norm_num)
    rwa [Real.exp_zero] at h
  have hne : (1 : ℝ) - Real.exp (-1) ≠ 0 := sub_ne_zero.mpr (ne_of_lt he1).symm
  have harg : -(1 : ℝ) * 1 / 1 = -1 := by norm_num
  have h1 : estrsh (1, 0) 1 1 1 = 0 := by
    simp only [estrsh, harg]
    field_simp
  have h2 : estrshSpec (1, 0) 1 1 1 = Real.exp (-1) := by
    have hq : ((0 : ℝ) - 1 * Real.exp (-1)) / (1 - Real.exp (-1)) ≤ 0 := by
      apply div_nonpos_of_nonpos_of_nonneg
      · linarith
      · linarith
    simp only [estrshSpec, harg]
    rw [max_eq_left hq]
    ring
  refine ⟨h1, h2, ?_⟩
  rw [h1, h2]
  exact (ne_of_gt hpos).symm

/-- C8: with the first-iteration sentinel (state = 0) as previous record,
all nine relative-change fields of the check_converge result are infinite;
with a genuine previous record, each change field is the absolute relative
change, |curr - prev| / |prev|, of the corresponding statistic of the
percent errors in Imp, Vmp, Pmp: the mean, the sample standard deviation
with denominator n - 1, and the maximum absolute value. -/
theorem check_converge_change_fields {n : ℕ} (prev : ConvergeParam)
    (resImp resVmp resPmp vmp imp : Fin (n + 1) → ℝ) :
    (prev.state = 0 →
      (check_converge prev resImp resVmp resPmp vmp imp).imperrstdchange = ⊤ ∧
      (check_converge prev resImp resVmp resPmp vmp imp).vmperrstdchange = ⊤ ∧
      (check_converge prev resImp resVmp resPmp vmp imp).pmperrstdchange = ⊤ ∧
      (check_converge prev resImp resVmp resPmp vmp imp).imperrmeanchange = ⊤ ∧
      (check_converge prev resImp resVmp resPmp vmp imp).vmperrmeanchange = ⊤ ∧
      (check_converge prev resImp resVmp resPmp vmp imp).pmperrmeanchange = ⊤ ∧
      (check_converge prev resImp resVmp resPmp vmp imp).imperrabsmaxchange = ⊤ ∧
      (check_converge prev resImp resVmp resPmp vmp imp).vmperrabsmaxchange = ⊤ ∧
      (check_converge prev resImp resVmp resPmp vmp imp).pmperrabsmaxchange = ⊤) ∧
    (prev.state ≠ 0 →
      (check_converge prev resImp resVmp resPmp vmp imp).imperrstdchange =
        ((|stdv (pcterr resImp imp) - prev.imperrstd| / |prev.imperrstd| : ℝ) : WithTop ℝ) ∧
      (check_converge prev resImp resVmp resPmp vmp imp).vmperrstdchange =
        ((|stdv (pcterr resVmp vmp) - prev.vmperrstd| / |prev.vmperrstd| : ℝ) : WithTop ℝ) ∧
      (check_converge prev resImp resVmp resPmp vmp imp).pmperrstdchange =
        ((|stdv (pcterr resPmp fun i => imp i * vmp i) - prev.pmperrstd| /
            |prev.pmperrstd| : ℝ) : WithTop ℝ) ∧
      (check_converge prev resImp resVmp resPmp vmp imp).imperrmeanchange =
        ((|meanv (pcterr resImp imp) - prev.imperrmean| / |prev.imperrmean| : ℝ) : WithTop ℝ) ∧
      (check_converge prev resImp resVmp resPmp vmp imp).vmperrmeanchange =
        ((|meanv (pcterr resVmp vmp) - prev.vmperrmean| / |prev.vmperrmean| : ℝ) : WithTop ℝ) ∧
      (check_converge prev resImp resVmp resPmp vmp imp).pmperrmeanchange =
        ((|meanv (pcterr resPmp fun i => imp i * vmp i) - prev.pmperrmean| /
            |prev.pmperrmean| : ℝ) : WithTop ℝ) ∧
      (check_converge prev resImp resVmp resPmp vmp imp).imperrabsmaxchange =
        ((|maxv (fun i => |pcterr resImp imp i|) - prev.imperrabsmax| /
            |prev.imperrabsmax| : ℝ) : WithTop ℝ) ∧
      (check_converge prev resImp resVmp resPmp vmp imp).vmperrabsmaxchange =
        ((|maxv (fun i => |pcterr resVmp vmp i|) - prev.vmperrabsmax| /
            |prev.vmperrabsmax| : ℝ) : WithTop ℝ) ∧
      (check_converge prev resImp resVmp resPmp vmp imp).pmperrabsmaxchange =
        ((|maxv (fun i => |pcterr resPmp (fun i => imp i * vmp i) i|) - prev.pmperrabsmax| /
            |prev.pmperrabsmax| : ℝ) : WithTop ℝ)) := by
  constructor
  · intro h
    simp [check_converge, h]
  · intro h
    simp [check_converge, h, abs_div]

/-- C8 witness: the sentinel case and the genuine-record case at concrete
inputs. -/
theorem check_converge_change_fields_witness :
    ((@check_converge 0 prevZero (fun _ => 1) (fun _ => 1) (fun _ => 1) (fun _ => 1)
        (fun _ => 1)).imperrstdchange = ⊤ ∧
      (@check_converge 0 prevZero (fun _ => 1) (fun _ => 1) (fun _ => 1) (fun _ => 1)
        (fun _ => 1)).vmperrstdchange = ⊤ ∧
      (@check_converge 0 prevZero (fun _ => 1) (fun _ => 1) (fun _ => 1) (fun _ => 1)
        (fun _ => 1)).pmperrstdchange = ⊤ ∧
      (@check_converge 0 prevZero (fun _ => 1) (fun _ => 1) (fun _ => 1) (fun _ => 1)
        (fun _ => 1)).imperrmeanchange = ⊤ ∧
      (@check_converge 0 prevZero (fun _ => 1) (fun _ => 1) (fun _ => 1) (fun _ => 1)
        (fun _ => 1)).vmperrmeanchange = ⊤ ∧
      (@check_converge 0 prevZero (fun _ => 1) (fun _ => 1) (fun _ => 1) (fun _ => 1)
        (fun _ => 1)).pmperrmeanchange = ⊤ ∧
      (@check_converge 0 prevZero (fun _ => 1) (fun _ => 1) (fun _ => 1) (fun _ => 1)
        (fun _ => 1)).imperrabsmaxchange = ⊤ ∧
      (@check_converge 0 prevZero (fun _ => 1) (fun _ => 1) (fun _ => 1) (fun _ => 1)
        (fun _ => 1)).vmperrabsmaxchange = ⊤ ∧
      (@check_converge 0 prevZero (fun _ => 1) (fun _ => 1) (fun _ => 1) (fun _ => 1)
        (fun _ => 1)).pmperrabsmaxchange = ⊤) ∧
    (@check_converge 0 prevOne (fun _ => 1) (fun _ => 1) (fun _ => 1) (fun _ => 1)
        (fun _ => 1)).imperrstdchange =
      ((|@stdv 0 (@pcterr 0 (fun _ => 1) (fun _ => 1)) - prevOne.imperrstd| /
          |prevOne.imperrstd| : ℝ) : WithTop ℝ) :=
  ⟨(check_converge_change_fields prevZero (fun _ => 1) (fun _ => 1) (fun _ => 1) (fun _ => 1)
      (fun _ => 1)).1 rfl,
    ((check_converge_change_fields prevOne (fun _ => 1) (fun _ => 1) (fun _ => 1) (fun _ => 1)
      (fun _ => 1)).2 (by simp [prevOne])).1⟩

/-- C9 (counterexample): with a raw point of current 3 at voltage 0, the
injected (0, isc) point is averaged with it, so the output of
rectify_iv_curve on currents [3], voltages [0], voc 10, isc 5 contains the
point (4, 0) instead of (5, 0): the claimed point with voltage 0 and current
isc is absent. -/
theorem rectify_iv_curve_isc_point_missing :
    ((5 : ℚ), (0 : ℚ)) ∉ rectifyPoints [3] [0] 10 5 := by
  have hval : rectifyPoints [3] [0] 10 5 = [(4, 0), (0, 10)] := by
    norm_num [rectifyPoints, rectify_iv_curve, rectCurrent, rectVoltage, keptPoints,
      sortedDedup, insertSorted, currentsAt, npAverage, List.zip_cons_cons]
  rw [hval]
  decide

/-- C9 (amended): if voc is nonzero and no input voltage equals 0 or voc,
the output of rectify_iv_curve contains the point with voltage 0 and current
isc and the point with voltage voc and current 0 (without those hypotheses
the injected points can be averaged with duplicate raw points and their
currents change). -/
theorem rectify_iv_curve_endpoints (ti tv : List ℚ) (voc isc : ℚ) (hvoc : voc ≠ 0)
    (hv : ∀ v ∈ tv, v ≠ 0 ∧ v ≠ voc) :
    (isc, 0) ∈ rectifyPoints ti tv voc isc ∧ (0, voc) ∈ rectifyPoints ti tv voc isc := by
  set A := (keptPoints ti tv voc).map Prod.fst with hA
  set B := (keptPoints ti tv voc).map Prod.snd with hB
  have hlen : A.length = B.length := by simp [hA, hB]
  have hBv : ∀ b ∈ B, b ≠ 0 ∧ b ≠ voc := by
    intro b hb
    rw [hB] at hb
    obtain ⟨p, hp, rfl⟩ := List.mem_map.mp hb
    obtain ⟨pa, pb⟩ := p
    exact hv pb (List.of_mem_zip (List.mem_of_mem_filter hp)).2
  have hcur : rectCurrent ti tv voc isc = isc :: (A ++ [0]) := rfl
  have hvol : rectVoltage ti tv voc = 0 :: (B ++ [voc]) := rfl
  have hpts : rectifyPoints ti tv voc isc =
      (rectify_iv_curve ti tv voc isc).1.zip (rectify_iv_curve ti tv voc isc).2 := rfl
  have hrec : rectify_iv_curve ti tv voc isc =
      if (sortedDedup (rectVoltage ti tv voc)).length = (rectVoltage ti tv voc).length
      then (rectCurrent ti tv voc isc, rectVoltage ti tv voc)
      else ((sortedDedup (rectVoltage ti tv voc)).map
              (fun w => npAverage
                (currentsAt (rectVoltage ti tv voc) (rectCurrent ti tv voc isc) w)),
            sortedDedup (rectVoltage ti tv voc)) := rfl
  rw [hpts, hrec]
  by_cases hdup :
      (sortedDedup (rectVoltage ti tv voc)).length = (rectVoltage ti tv voc).length
  · rw [if_pos hdup]
    rw [hcur, hvol, List.zip_cons_cons, List.zip_append hlen]
    constructor
    · exact List.mem_cons_self _ _
    · apply List.mem_cons_of_mem
      apply List.mem_append_right
      simp [List.zip_cons_cons]
  · rw [if_neg hdup]
    rw [map_zip_self]
    have h0mem : (0 : ℚ) ∈ sortedDedup (rectVoltage ti tv voc) := by
      rw [mem_sortedDedup, hvol]
      exact List.mem_cons_self _ _
    have hvocmem : voc ∈ sortedDedup (rectVoltage ti tv voc) := by
      rw [mem_sortedDedup, hvol]
      exact List.mem_cons_of_mem _ (List.mem_append_right _ (List.mem_singleton.mpr rfl))
    have hc0 : currentsAt (rectVoltage ti tv voc) (rectCurrent ti tv voc isc) 0 = [isc] := by
      simp only [currentsAt, hcur, hvol, List.zip_cons_cons, List.zip_append hlen.symm,
        List.filter_cons, List.filter_append]
      have hmid0 : (B.zip A).filter (fun p => decide (p.1 = 0)) = [] := by
        rw [List.filter_eq_nil_iff]
        rintro ⟨pa, pb⟩ hp
        simp only [decide_eq_true_eq]
        exact (hBv pa (List.of_mem_zip hp).1).1
      rw [hmid0]
      simp [hvoc, Ne.symm hvoc]
    have hcV : currentsAt (rectVoltage ti tv voc) (rectCurrent ti tv voc isc) voc = [0] := by
      simp only [currentsAt, hcur, hvol, List.zip_cons_cons, List.zip_append hlen.symm,
        List.filter_cons, List.filter_append]
      have hmidV : (B.zip A).filter (fun p => decide (p.1 = voc)) = [] := by
        rw [List.filter_eq_nil_iff]
        rintro ⟨pa, pb⟩ hp
        simp only [decide_eq_true_eq]
        exact (hBv pa (List.of_mem_zip hp).1).2
      rw [hmidV]
      simp [hvoc, Ne.symm hvoc]
    constructor
    · refine List.mem_map.mpr ⟨0, h0mem, ?_⟩
      rw [hc0]
      simp [npAverage]
    · refine List.mem_map.mpr ⟨voc, hvocmem, ?_⟩
      rw [hcV]
      simp [npAverage]

/-- C9 witness: the amended statement at a concrete input with distinct
voltages. -/
theorem rectify_iv_curve_endpoints_witness :
    ((2 : ℚ), (0 : ℚ)) ∈ rectifyPoints [1] [5] 10 2 ∧
      ((0 : ℚ), (10 : ℚ)) ∈ rectifyPoints [1] [5] 10 2 :=
  rectify_iv_curve_endpoints [1] [5] 10 2 (by decide) (by decide)
